import Mathlib

/-
Verification of the mrg32k3a random-number subsystem of the simopt
repository (src/simopt/rng/mrg32k3a.py), embedded shallowly in Lean.

Conventions of the embedding:
* Python integers are arbitrary precision, so they are modelled as `ℤ`.
* The Python 6-tuple state `(s0, s1, s2, s3, s4, s5)` is modelled as the
  pair of 3-component halves `((s0, s1, s2), (s3, s4, s5))`, matching the
  `state[0:3]` / `state[3:6]` split the source performs everywhere.
* `int(p1/mrgm1)` in the source performs IEEE double division followed by
  truncation toward zero.  For every state whose components are below
  2³², the quotient has magnitude below 2²¹, so the division error is at
  most 2⁻³³ while the exact quotient is at distance at least
  1/mrgm1 > 2⁻³² from any integer it does not attain; the float
  computation therefore coincides with exact truncating division, which
  is `Int.tdiv`.
* The uniform draw `u` is a Python float; it is modelled in exact rational
  arithmetic, with `mrgnorm` the exact value of the source's decimal
  literal 2.328306549295727688e-10.
* Raising an exception (the `assert` statements in `seed` and `__init__`)
  is modelled by returning `none` from a checked variant taking a list.
* The module `matmodops` is imported by mrg32k3a.py but its file is not
  part of the sources provided; its five operations are modelled from the
  spec (section 4.1), which describes them as plain fixed-size modular
  matrix arithmetic.
-/

/-- Exact rational value of the decimal literal 2.328306549295727688e-10. -/
def mrgnorm : ℚ := 2328306549295727688 / 10 ^ 28

def mrgm1 : ℤ := 4294967087

def mrgm2 : ℤ := 4294944443

def mrga12 : ℤ := 1403580

def mrga13n : ℤ := 810728

def mrga21 : ℤ := 527612

def mrga23n : ℤ := 1370589

abbrev Vec3 : Type := ℤ × ℤ × ℤ

abbrev Mat3 : Type := Vec3 × Vec3 × Vec3

/-- Modelled from the spec: `matmodops` (absent from src/) provides a
3×3-by-3×1 integer matrix-vector multiply. -/
def mat33_mat31_mult (A : Mat3) (b : Vec3) : Vec3 :=
  (A.1.1 * b.1 + A.1.2.1 * b.2.1 + A.1.2.2 * b.2.2,
   A.2.1.1 * b.1 + A.2.1.2.1 * b.2.1 + A.2.1.2.2 * b.2.2,
   A.2.2.1 * b.1 + A.2.2.2.1 * b.2.1 + A.2.2.2.2 * b.2.2)

/-- Modelled from the spec: `matmodops` (absent from src/) provides a
componentwise vector reduction into [0, m); Python `%` on integers with a
positive modulus is Euclidean mod, i.e. `Int.emod`. -/
def mat31_mod (b : Vec3) (m : ℤ) : Vec3 :=
  (b.1 % m, b.2.1 % m, b.2.2 % m)

/-- Row-by-matrix product: row r times the 3×3 matrix B. -/
def rowMul (r : Vec3) (B : Mat3) : Vec3 :=
  (r.1 * B.1.1 + r.2.1 * B.2.1.1 + r.2.2 * B.2.2.1,
   r.1 * B.1.2.1 + r.2.1 * B.2.1.2.1 + r.2.2 * B.2.2.2.1,
   r.1 * B.1.2.2 + r.2.1 * B.2.1.2.2 + r.2.2 * B.2.2.2.2)

/-- Modelled from the spec: `matmodops` (absent from src/) provides a
3×3-by-3×3 integer matrix multiply. -/
def mat33_mat33_mult (A B : Mat3) : Mat3 :=
  (rowMul A.1 B, rowMul A.2.1 B, rowMul A.2.2 B)

/-- Modelled from the spec: componentwise matrix reduction into [0, m). -/
def mat33_mod (A : Mat3) (m : ℤ) : Mat3 :=
  (mat31_mod A.1 m, mat31_mod A.2.1 m, mat31_mod A.2.2 m)

/-- Modelled from the spec: multiply two 3×3 matrices and reduce mod m. -/
def mat33_mat33_mod (A B : Mat3) (m : ℤ) : Mat3 :=
  mat33_mod (mat33_mat33_mult A B) m

/-- One squaring step modulo m, the building block of the repeated-squaring
matrix exponentiation the spec describes for deriving the jump constants. -/
def mat33_sq_mod (A : Mat3) (m : ℤ) : Mat3 :=
  mat33_mat33_mod A A m

/-- Base recursion-1 matrix A1p0 from the source (a triple of rows). -/
def A1p0 : Mat3 := ((0, 1, 0), (0, 0, 1), (-mrga13n, mrga12, 0))

def A2p0 : Mat3 := ((0, 1, 0), (0, 0, 1), (-mrga23n, 0, mrga21))

def A1p47 : Mat3 :=
  ((1362557480, 3230022138, 4278720212),
   (3427386258, 3848976950, 3230022138),
   (2109817045, 2441486578, 3848976950))

def A2p47 : Mat3 :=
  ((2920112852, 1965329198, 1177141043),
   (2135250851, 2920112852, 969184056),
   (296035385, 2135250851, 4267827987))

def A1p94 : Mat3 :=
  ((2873769531, 2081104178, 596284397),
   (4153800443, 1261269623, 2081104178),
   (3967600061, 1830023157, 1261269623))

def A2p94 : Mat3 :=
  ((1347291439, 2050427676, 736113023),
   (4102191254, 1347291439, 878627148),
   (1293500383, 4102191254, 745646810))

def A1p141 : Mat3 :=
  ((3230096243, 2131723358, 3262178024),
   (2882890127, 4088518247, 2131723358),
   (3991553306, 1282224087, 4088518247))

def A2p141 : Mat3 :=
  ((2196438580, 805386227, 4266375092),
   (4124675351, 2196438580, 2527961345),
   (94452540, 4124675351, 2825656399))

abbrev State6 : Type := Vec3 × Vec3

/-- Combination step of the core generator: the draw computed from the two
reduced components p1 and p2, exactly as the source's final if/else. -/
def mrgU (p1 p2 : ℤ) : ℚ :=
  if p1 ≤ p2 then ((p1 : ℚ) - (p2 : ℚ) + ((mrgm1 : ℤ) : ℚ)) * mrgnorm
  else ((p1 : ℚ) - (p2 : ℚ)) * mrgnorm

/-- Core step function `mrg32k3a(state)` of the source: advance the 6-word
state by one combined-recursion step and emit one uniform draw.
`state = ((s0, s1, s2), (s3, s4, s5))` for the Python tuple indices 0..5. -/
def mrg32k3a (state : State6) : State6 × ℚ :=
  let p1a := mrga12 * state.1.2.1 - mrga13n * state.1.1
  let k1 := Int.tdiv p1a mrgm1
  let p1b := p1a - k1 * mrgm1
  let p1 := if p1b < 0 then p1b + mrgm1 else p1b
  let p2a := mrga21 * state.2.2.2 - mrga23n * state.2.1
  let k2 := Int.tdiv p2a mrgm2
  let p2b := p2a - k2 * mrgm2
  let p2 := if p2b < 0 then p2b + mrgm2 else p2b
  (((state.1.2.1, state.1.2.2, p1), (state.2.2.1, state.2.2.2, p2)), mrgU p1 p2)

/-- State advanced by one draw (first component of the core step). -/
def mrgStep (s : State6) : State6 := (mrg32k3a s).1

/-- Generator object: current state, reference seed, the three anchor
states and the stream/substream/subsubstream index triplet, mirroring the
attributes of the Python class MRG32k3a. -/
structure MRG32k3a where
  ref_seed : State6
  current_state : State6
  stream_start : State6
  substream_start : State6
  subsubstream_start : State6
  s_ss_sss_index : ℕ × ℕ × ℕ

/-- One jump: split the state into its two halves, multiply each by the
given jump matrix and reduce modulo the respective modulus, as done inline
by the advance functions and the loops of start_fixed_s_ss_sss. -/
def jumpState (A1 A2 : Mat3) (state : State6) : State6 :=
  (mat31_mod (mat33_mat31_mult A1 state.1) mrgm1,
   mat31_mod (mat33_mat31_mult A2 state.2) mrgm2)

/-- advance_stream(rng) of the source: jump stream_start by 2¹⁴¹ steps,
seed the generator there, increment index[0], and re-anchor all levels. -/
def advance_stream (rng : MRG32k3a) : MRG32k3a :=
  let nstate := jumpState A1p141 A2p141 rng.stream_start
  { rng with
    current_state := nstate
    s_ss_sss_index :=
      (rng.s_ss_sss_index.1 + 1, rng.s_ss_sss_index.2.1, rng.s_ss_sss_index.2.2)
    stream_start := nstate
    substream_start := nstate
    subsubstream_start := nstate }

/-- advance_substream(rng) of the source: jump substream_start by 2⁹⁴
steps, seed there, increment index[1], re-anchor substream and below. -/
def advance_substream (rng : MRG32k3a) : MRG32k3a :=
  let nstate := jumpState A1p94 A2p94 rng.substream_start
  { rng with
    current_state := nstate
    s_ss_sss_index :=
      (rng.s_ss_sss_index.1, rng.s_ss_sss_index.2.1 + 1, rng.s_ss_sss_index.2.2)
    substream_start := nstate
    subsubstream_start := nstate }

/-- advance_subsubstream(rng) of the source: jump subsubstream_start by
2⁴⁷ steps, seed there, increment index[2], re-anchor the subsubstream. -/
def advance_subsubstream (rng : MRG32k3a) : MRG32k3a :=
  let nstate := jumpState A1p47 A2p47 rng.subsubstream_start
  { rng with
    current_state := nstate
    s_ss_sss_index :=
      (rng.s_ss_sss_index.1, rng.s_ss_sss_index.2.1, rng.s_ss_sss_index.2.2 + 1)
    subsubstream_start := nstate }

/-- reset_stream(rng) of the source. -/
def reset_stream (rng : MRG32k3a) : MRG32k3a :=
  let nstate := rng.stream_start
  { rng with
    current_state := nstate
    substream_start := nstate
    subsubstream_start := nstate
    s_ss_sss_index := (rng.s_ss_sss_index.1, 0, 0) }

/-- reset_substream(rng) of the source. -/
def reset_substream (rng : MRG32k3a) : MRG32k3a :=
  let nstate := rng.substream_start
  { rng with
    current_state := nstate
    subsubstream_start := nstate
    s_ss_sss_index := (rng.s_ss_sss_index.1, rng.s_ss_sss_index.2.1, 0) }

/-- reset_subsubstream(rng) of the source. -/
def reset_subsubstream (rng : MRG32k3a) : MRG32k3a :=
  { rng with current_state := rng.subsubstream_start }

/-- start_fixed_s_ss_sss(rng, triplet) of the source: starting from
ref_seed, apply the 2¹⁴¹ jump t.1 times (anchoring stream_start), then the
2⁹⁴ jump t.2.1 times (anchoring substream_start), then the 2⁴⁷ jump t.2.2
times (anchoring subsubstream_start), seed the generator at the final
state and install the index triplet. -/
def start_fixed_s_ss_sss (rng : MRG32k3a) (t : ℕ × ℕ × ℕ) : MRG32k3a :=
  let s1 := (jumpState A1p141 A2p141)^[t.1] rng.ref_seed
  let s2 := (jumpState A1p94 A2p94)^[t.2.1] s1
  let s3 := (jumpState A1p47 A2p47)^[t.2.2] s2
  { rng with
    stream_start := s1
    substream_start := s2
    subsubstream_start := s3
    current_state := s3
    s_ss_sss_index := t }

/-- Constructor `MRG32k3a.__init__(ref_seed)` of the source: store the
reference seed, position the hierarchy at triplet (0,0,0) via
start_fixed_s_ss_sss, then (through `super().__init__` calling the
overridden `seed`) set the current state to ref_seed; the placeholder
fields of `g0` mirror attributes that do not exist before the
start_fixed_s_ss_sss call overwrites them all. -/
def MRG32k3a.init (ref_seed : State6) : MRG32k3a :=
  let g0 : MRG32k3a :=
    { ref_seed := ref_seed
      current_state := ref_seed
      stream_start := ref_seed
      substream_start := ref_seed
      subsubstream_start := ref_seed
      s_ss_sss_index := (0, 0, 0) }
  let g1 := start_fixed_s_ss_sss g0 (0, 0, 0)
  { g1 with current_state := ref_seed }

/-- Default reference seed of the source. -/
def refSeedDefault : State6 := ((12345, 12345, 12345), (12345, 12345, 12345))

/-- MRG32k3a.seed(new_state) of the source, on an externally supplied
sequence: `assert(len(new_state) == 6)` then install the state; the failed
assertion (an exception, so no state is installed) is modelled by `none`.
No other validation is performed by the source. -/
def seedList (rng : MRG32k3a) (new_state : List ℤ) : Option MRG32k3a :=
  match new_state with
  | [a, b, c, d, e, f] => some { rng with current_state := ((a, b, c), (d, e, f)) }
  | _ => none

/-- MRG32k3a.__init__ on an externally supplied sequence:
`assert(len(ref_seed) == 6)` then construct; the failed assertion is
modelled by `none`.  No other validation is performed by the source. -/
def initList (xs : List ℤ) : Option MRG32k3a :=
  match xs with
  | [a, b, c, d, e, f] => some (MRG32k3a.init ((a, b, c), (d, e, f)))
  | _ => none

/-- State validity from the spec data model: first three components in
[0, m1), last three in [0, m2). -/
abbrev ValidState (s : State6) : Prop :=
  0 ≤ s.1.1 ∧ s.1.1 < mrgm1 ∧ 0 ≤ s.1.2.1 ∧ s.1.2.1 < mrgm1 ∧
  0 ≤ s.1.2.2 ∧ s.1.2.2 < mrgm1 ∧ 0 ≤ s.2.1 ∧ s.2.1 < mrgm2 ∧
  0 ≤ s.2.2.1 ∧ s.2.2.1 < mrgm2 ∧ 0 ≤ s.2.2.2 ∧ s.2.2.2 < mrgm2

/-- Generator validity: every stored state is valid. -/
abbrev ValidRng (r : MRG32k3a) : Prop :=
  ValidState r.ref_seed ∧ ValidState r.current_state ∧
  ValidState r.stream_start ∧ ValidState r.substream_start ∧
  ValidState r.subsubstream_start

/-- Modulus m1 as a natural number, for the ZMod formulation of the
jump-matrix recomputation check. -/
def M1nat : ℕ := 4294967087

/-- View of a 3×3 integer matrix as a matrix over ZMod m. -/
def toZMat (m : ℕ) (A : Mat3) : Matrix (Fin 3) (Fin 3) (ZMod m) :=
  !![(A.1.1 : ZMod m), (A.1.2.1 : ZMod m), (A.1.2.2 : ZMod m);
     (A.2.1.1 : ZMod m), (A.2.1.2.1 : ZMod m), (A.2.1.2.2 : ZMod m);
     (A.2.2.1 : ZMod m), (A.2.2.2.1 : ZMod m), (A.2.2.2.2 : ZMod m)]

/-
Helper lemmas.
-/

/-- Truncating remainder is strictly greater than the negated (positive)
divisor. -/
theorem neg_lt_tmod (a : Int) (b : Int) (hb : 0 < b) : -b < Int.tmod a b := by
  match a, b with
  | Int.ofNat m, b =>
      have h0 : (0:ℤ) ≤ Int.tmod (Int.ofNat m) b := Int.tmod_nonneg b (Int.ofNat_nonneg m)
      linarith
  | Int.negSucc m, Int.ofNat n =>
      have e : Int.tmod (Int.negSucc m) (Int.ofNat n) = -(((Nat.succ m % n : ℕ)) : ℤ) := rfl
      have h : Nat.succ m % n < n := Nat.mod_lt _ (by
        rcases n with _ | n
        · simp at hb
        · omega)
      rw [e, Int.ofNat_eq_natCast] at *
      have h2 : ((Nat.succ m % n : ℕ) : ℤ) < (n : ℤ) := by exact_mod_cast h
      linarith
  | Int.negSucc m, Int.negSucc n =>
      exact absurd hb (by exact not_lt.mpr (le_of_lt (Int.negSucc_lt_zero n)))

/-- The source's remainder correction (truncated quotient, subtract, then
add the modulus when negative) computes the Euclidean remainder. -/
theorem tcorr_eq_emod (a m : ℤ) (hm : 0 < m) :
    (if a - Int.tdiv a m * m < 0
     then a - Int.tdiv a m * m + m
     else a - Int.tdiv a m * m) = a % m := by
  have hd : Int.tmod a m = a - m * Int.tdiv a m := Int.tmod_def a m
  have h1 : Int.tmod a m < m := Int.tmod_lt_of_pos a hm
  have h2 : -m < Int.tmod a m := neg_lt_tmod a m hm
  have he : a % m = a - m * (a / m) := Int.emod_def a m
  have h3 : 0 ≤ a % m := Int.emod_nonneg a (by omega)
  have h4 : a % m < m := Int.emod_lt_of_pos a hm
  have hmul : Int.tmod a m - a % m = m * ((a / m) - Int.tdiv a m) := by
    rw [hd, he]; ring
  have key : Int.tmod a m = a % m ∨ Int.tmod a m = a % m - m := by
    rcases lt_trichotomy ((a / m) - Int.tdiv a m) 0 with h | h | h
    · have h6 : (a / m) - Int.tdiv a m = -1 ∨ (a / m) - Int.tdiv a m ≤ -2 := by omega
      rcases h6 with h6 | h6
      · right; rw [h6] at hmul; linarith
      · have h7 : m * ((a / m) - Int.tdiv a m) ≤ m * (-2) :=
          mul_le_mul_of_nonneg_left h6 (by linarith)
        linarith
    · left; rw [h, mul_zero] at hmul; linarith
    · have h6 : (1:ℤ) ≤ (a / m) - Int.tdiv a m := h
      have h7 : m * 1 ≤ m * ((a / m) - Int.tdiv a m) :=
        mul_le_mul_of_nonneg_left h6 (by linarith)
      linarith
  have hta : a - Int.tdiv a m * m = Int.tmod a m := by rw [hd, mul_comm]
  rw [hta]
  rcases key with k | k <;> split <;> linarith

/-- Closed form of the core step: both reduced components are Euclidean
remainders of the linear combinations. -/
theorem mrg32k3a_eq (x0 x1 x2 y0 y1 y2 : ℤ) :
    mrg32k3a ((x0, x1, x2), (y0, y1, y2)) =
      (((x1, x2, (mrga12 * x1 - mrga13n * x0) % mrgm1),
        (y1, y2, (mrga21 * y2 - mrga23n * y0) % mrgm2)),
       mrgU ((mrga12 * x1 - mrga13n * x0) % mrgm1)
            ((mrga21 * y2 - mrga23n * y0) % mrgm2)) := by
  have e1 := tcorr_eq_emod (mrga12 * x1 - mrga13n * x0) mrgm1 (by decide)
  have e2 := tcorr_eq_emod (mrga21 * y2 - mrga23n * y0) mrgm2 (by decide)
  simp only [mrg32k3a]
  rw [e1, e2]

/-- The combination step lands strictly inside the open unit interval
whenever its two arguments are in their modulus ranges. -/
theorem mrgU_bounds (p1 p2 : ℤ) (h1 : 0 ≤ p1) (h2 : p1 < mrgm1)
    (h3 : 0 ≤ p2) (h4 : p2 < mrgm2) : 0 < mrgU p1 p2 ∧ mrgU p1 p2 < 1 := by
  have hq1 : (0:ℚ) ≤ (p1:ℚ) := by exact_mod_cast h1
  have hq2 : (p1:ℚ) < ((mrgm1 : ℤ):ℚ) := by exact_mod_cast h2
  have hq3 : (0:ℚ) ≤ (p2:ℚ) := by exact_mod_cast h3
  have hq4 : (p2:ℚ) < ((mrgm2 : ℤ):ℚ) := by exact_mod_cast h4
  have hm1 : ((mrgm1 : ℤ):ℚ) = (4294967087 : ℚ) := by norm_num [mrgm1]
  have hm2 : ((mrgm2 : ℤ):ℚ) = (4294944443 : ℚ) := by norm_num [mrgm2]
  have hnormpos : (0:ℚ) < mrgnorm := by norm_num [mrgnorm]
  have hlast : (4294967087 : ℚ) * mrgnorm < 1 := by norm_num [mrgnorm]
  rw [hm1] at hq2
  rw [hm2] at hq4
  unfold mrgU
  split
  · rename_i hle
    have hqle : (p1:ℚ) ≤ (p2:ℚ) := by exact_mod_cast hle
    constructor
    · apply mul_pos _ hnormpos
      rw [hm1]
      linarith
    · have hz : (p1:ℚ) - (p2:ℚ) + ((mrgm1 : ℤ):ℚ) ≤ (4294967087 : ℚ) := by
        rw [hm1]; linarith
      calc ((p1:ℚ) - (p2:ℚ) + ((mrgm1 : ℤ):ℚ)) * mrgnorm
          ≤ (4294967087 : ℚ) * mrgnorm :=
            mul_le_mul_of_nonneg_right hz (le_of_lt hnormpos)
        _ < 1 := hlast
  · rename_i hgt
    have hqgt : (p2:ℚ) < (p1:ℚ) := by exact_mod_cast (lt_of_not_le hgt)
    constructor
    · apply mul_pos _ hnormpos
      linarith
    · have hz : (p1:ℚ) - (p2:ℚ) < (4294967087 : ℚ) := by linarith
      calc ((p1:ℚ) - (p2:ℚ)) * mrgnorm
          < (4294967087 : ℚ) * mrgnorm := mul_lt_mul_of_pos_right hz hnormpos
        _ < 1 := hlast

/-- Every draw of the core step lies strictly between 0 and 1, whatever
the input state, because both reduced components are Euclidean remainders. -/
theorem mrg32k3a_u_mem (s : State6) : 0 < (mrg32k3a s).2 ∧ (mrg32k3a s).2 < 1 := by
  obtain ⟨⟨x0, x1, x2⟩, ⟨y0, y1, y2⟩⟩ := s
  rw [mrg32k3a_eq]
  exact mrgU_bounds _ _
    (Int.emod_nonneg _ (by decide)) (Int.emod_lt_of_pos _ (by decide))
    (Int.emod_nonneg _ (by decide)) (Int.emod_lt_of_pos _ (by decide))

/-- A jump always lands in a valid state, its input being arbitrary,
because each component is reduced modulo the positive modulus. -/
theorem validState_jumpState (A1 A2 : Mat3) (s : State6) :
    ValidState (jumpState A1 A2 s) :=
  ⟨Int.emod_nonneg _ (by decide), Int.emod_lt_of_pos _ (by decide),
   Int.emod_nonneg _ (by decide), Int.emod_lt_of_pos _ (by decide),
   Int.emod_nonneg _ (by decide), Int.emod_lt_of_pos _ (by decide),
   Int.emod_nonneg _ (by decide), Int.emod_lt_of_pos _ (by decide),
   Int.emod_nonneg _ (by decide), Int.emod_lt_of_pos _ (by decide),
   Int.emod_nonneg _ (by decide), Int.emod_lt_of_pos _ (by decide)⟩

/-- Iterated jumps preserve validity. -/
theorem validState_iterate (A1 A2 : Mat3) (n : ℕ) (s : State6)
    (h : ValidState s) : ValidState ((jumpState A1 A2)^[n] s) := by
  cases n with
  | zero => simpa using h
  | succ n =>
      rw [Function.iterate_succ_apply']
      exact validState_jumpState A1 A2 _

/-- The core step preserves validity. -/
theorem validState_mrgStep (s : State6) (h : ValidState s) :
    ValidState (mrg32k3a s).1 := by
  obtain ⟨⟨x0, x1, x2⟩, ⟨y0, y1, y2⟩⟩ := s
  rw [mrg32k3a_eq]
  obtain ⟨h1, h2, h3, h4, h5, h6, h7, h8, h9, h10, h11, h12⟩ := h
  exact ⟨h3, h4, h5, h6,
         Int.emod_nonneg _ (by decide), Int.emod_lt_of_pos _ (by decide),
         h9, h10, h11, h12,
         Int.emod_nonneg _ (by decide), Int.emod_lt_of_pos _ (by decide)⟩

/-- Iterating advance_stream from a generator whose four state fields
agree: all four fields follow the iterated 2¹⁴¹ jump and only index
component 0 grows. -/
theorem advance_stream_iter (a : ℕ) (rs cs st ss sss : State6) (i : ℕ × ℕ × ℕ)
    (s : State6) (h1 : st = s) (h2 : ss = s) (h3 : sss = s) (h4 : cs = s) :
    advance_stream^[a] ⟨rs, cs, st, ss, sss, i⟩ =
      ⟨rs, (jumpState A1p141 A2p141)^[a] s, (jumpState A1p141 A2p141)^[a] s,
       (jumpState A1p141 A2p141)^[a] s, (jumpState A1p141 A2p141)^[a] s,
       (i.1 + a, i.2.1, i.2.2)⟩ := by
  subst h1 h2 h3 h4
  induction a with
  | zero => simp
  | succ n ih =>
      rw [Function.iterate_succ_apply', ih]
      simp [advance_stream, Function.iterate_succ_apply', Nat.add_assoc]

/-- Iterating advance_substream: substream_start, subsubstream_start and
current state follow the iterated 2⁹⁴ jump, stream_start is untouched,
and only index component 1 grows. -/
theorem advance_substream_iter (b : ℕ) (rs cs st ss sss : State6)
    (i : ℕ × ℕ × ℕ) (s : State6) (h2 : ss = s) (h3 : sss = s) (h4 : cs = s) :
    advance_substream^[b] ⟨rs, cs, st, ss, sss, i⟩ =
      ⟨rs, (jumpState A1p94 A2p94)^[b] s, st, (jumpState A1p94 A2p94)^[b] s,
       (jumpState A1p94 A2p94)^[b] s, (i.1, i.2.1 + b, i.2.2)⟩ := by
  subst h2 h3 h4
  induction b with
  | zero => simp
  | succ n ih =>
      rw [Function.iterate_succ_apply', ih]
      simp [advance_substream, Function.iterate_succ_apply', Nat.add_assoc]

/-- Iterating advance_subsubstream: subsubstream_start and current state
follow the iterated 2⁴⁷ jump, the other anchors are untouched, and only
index component 2 grows. -/
theorem advance_subsubstream_iter (c : ℕ) (rs cs st ss sss : State6)
    (i : ℕ × ℕ × ℕ) (s : State6) (h3 : sss = s) (h4 : cs = s) :
    advance_subsubstream^[c] ⟨rs, cs, st, ss, sss, i⟩ =
      ⟨rs, (jumpState A1p47 A2p47)^[c] s, st, ss,
       (jumpState A1p47 A2p47)^[c] s, (i.1, i.2.1, i.2.2 + c)⟩ := by
  subst h3 h4
  induction c with
  | zero => simp
  | succ n ih =>
      rw [Function.iterate_succ_apply', ih]
      simp [advance_subsubstream, Function.iterate_succ_apply', Nat.add_assoc]

/-- Reducing an integer matrix product modulo m commutes with viewing the
matrices over ZMod m. -/
theorem toZMat_mul (m : ℕ) (A B : Mat3) :
    toZMat m (mat33_mat33_mod A B (m : ℤ)) = toZMat m A * toZMat m B := by
  ext i j
  fin_cases i <;> fin_cases j <;>
    simp [toZMat, mat33_mat33_mod, mat33_mod, mat31_mod, mat33_mat33_mult,
          rowMul, Matrix.mul_apply, Fin.sum_univ_three, ZMod.intCast_mod]

/-- Iterated squaring modulo m computes the 2ⁿ-th matrix power over
ZMod m. -/
theorem toZMat_sq_iter (m : ℕ) (n : ℕ) (A : Mat3) :
    toZMat m ((fun B => mat33_sq_mod B (m : ℤ))^[n] A) = toZMat m A ^ (2 ^ n) := by
  induction n with
  | zero => simp
  | succ k ih =>
      rw [Function.iterate_succ_apply']
      show toZMat m (mat33_mat33_mod _ _ (m : ℤ)) = _
      rw [toZMat_mul, ih, ← pow_add]
      congr 1
      rw [pow_succ, Nat.mul_two]

/-
Claim theorems.
-/

/-- C1: for every triplet of non-negative integers (a,b,c),
start_fixed_s_ss_sss(rng, [a,b,c]) yields the same current state,
stream_start, substream_start and subsubstream_start as
start_fixed_s_ss_sss(rng, [0,0,0]) followed by a calls of advance_stream,
b calls of advance_substream and c calls of advance_subsubstream. -/
theorem start_fixed_equiv_advances (r : MRG32k3a) (a b c : ℕ) :
    (start_fixed_s_ss_sss r (a, b, c)).current_state
      = (advance_subsubstream^[c] (advance_substream^[b] (advance_stream^[a]
          (start_fixed_s_ss_sss r (0, 0, 0))))).current_state ∧
    (start_fixed_s_ss_sss r (a, b, c)).stream_start
      = (advance_subsubstream^[c] (advance_substream^[b] (advance_stream^[a]
          (start_fixed_s_ss_sss r (0, 0, 0))))).stream_start ∧
    (start_fixed_s_ss_sss r (a, b, c)).substream_start
      = (advance_subsubstream^[c] (advance_substream^[b] (advance_stream^[a]
          (start_fixed_s_ss_sss r (0, 0, 0))))).substream_start ∧
    (start_fixed_s_ss_sss r (a, b, c)).subsubstream_start
      = (advance_subsubstream^[c] (advance_substream^[b] (advance_stream^[a]
          (start_fixed_s_ss_sss r (0, 0, 0))))).subsubstream_start := by
  obtain ⟨rs, cs, st, ss, sss, i⟩ := r
  have h0 : start_fixed_s_ss_sss ⟨rs, cs, st, ss, sss, i⟩ (0, 0, 0)
      = ⟨rs, rs, rs, rs, rs, (0, 0, 0)⟩ := by
    simp [start_fixed_s_ss_sss]
  rw [h0]
  rw [advance_stream_iter a rs rs rs rs rs (0, 0, 0) rs rfl rfl rfl rfl]
  rw [advance_substream_iter b rs _ _ _ _ _ ((jumpState A1p141 A2p141)^[a] rs)
      rfl rfl rfl]
  rw [advance_subsubstream_iter c rs _ _ _ _ _
      ((jumpState A1p94 A2p94)^[b] ((jumpState A1p141 A2p141)^[a] rs)) rfl rfl]
  exact ⟨rfl, rfl, rfl, rfl⟩

/-- C2: one core step from state (12345,12345,12345,12345,12345,12345)
yields the documented new state, a draw equal to 0.127011 within 10⁻⁶,
and the quotients k1 and k2 are truncations toward zero (k2 is -2 where
flooring would give -3). -/
theorem mrg32k3a_known_answer :
    (mrg32k3a refSeedDefault).1
        = ((12345, 12345, 3023790853), (12345, 12345, 2478282264)) ∧
    (127010 : ℚ) / 1000000 < (mrg32k3a refSeedDefault).2 ∧
    (mrg32k3a refSeedDefault).2 < (127012 : ℚ) / 1000000 ∧
    Int.tdiv (mrga12 * 12345 - mrga13n * 12345) mrgm1 = 1 ∧
    Int.tdiv (mrga21 * 12345 - mrga23n * 12345) mrgm2 = -2 ∧
    Int.fdiv (mrga21 * 12345 - mrga23n * 12345) mrgm2 = -3 := by
  have hu : (mrg32k3a refSeedDefault).2 = mrgU 3023790853 2478282264 := rfl
  refine ⟨by decide, ?_, ?_, by decide, by decide, by decide⟩ <;>
    · rw [hu]
      unfold mrgU
      rw [if_neg (by norm_num)]
      norm_num [mrgnorm]

/-- C3 (behavior the code actually has, contradicting the claim):
advance_stream increments index component 0 but leaves components 1 and 2
unchanged, and advance_substream increments component 1 but leaves
component 2 unchanged; evaluated at generators whose lower index
components are nonzero. -/
theorem advance_index_behavior :
    (∀ r : MRG32k3a, (advance_stream r).s_ss_sss_index
        = (r.s_ss_sss_index.1 + 1, r.s_ss_sss_index.2.1, r.s_ss_sss_index.2.2)) ∧
    (∀ r : MRG32k3a, (advance_substream r).s_ss_sss_index
        = (r.s_ss_sss_index.1, r.s_ss_sss_index.2.1 + 1, r.s_ss_sss_index.2.2)) ∧
    (advance_stream (advance_substream (MRG32k3a.init refSeedDefault))).s_ss_sss_index
        = (1, 1, 0) ∧
    (advance_substream (advance_subsubstream (MRG32k3a.init refSeedDefault))).s_ss_sss_index
        = (0, 1, 1) :=
  ⟨fun r => rfl, fun r => rfl, by decide, by decide⟩

/-- C4 counterexample: seeding with a state whose first component equals
m1 (outside [0, m1)) raises nothing — the seed call succeeds, installs
the out-of-range state, and the core step then generates from it. -/
theorem seed_accepts_out_of_range_state :
    (seedList (MRG32k3a.init refSeedDefault)
        [4294967087, 12345, 12345, 12345, 12345, 12345]).map MRG32k3a.current_state
      = some ((4294967087, 12345, 12345), (12345, 12345, 12345)) ∧
    (seedList (MRG32k3a.init refSeedDefault)
        [4294967087, 12345, 12345, 12345, 12345, 12345]).map
          (fun g => (mrg32k3a g.current_state).1)
      = some ((12345, 12345, 147326752), (12345, 12345, 2478282264)) := by
  constructor <;> decide

/-- C4 as amended: the only validation the source performs is the length-6
assertion in seed and in the constructor; component ranges are never
checked, so seeding succeeds exactly when the supplied list has length 6,
whatever the component values. -/
theorem seed_checks_only_length :
    (∀ (r : MRG32k3a) (xs : List ℤ), (seedList r xs).isSome = true ↔ xs.length = 6) ∧
    (∀ xs : List ℤ, (initList xs).isSome = true ↔ xs.length = 6) := by
  constructor
  · intro r xs
    rcases xs with _ | ⟨a, _ | ⟨b, _ | ⟨c, _ | ⟨d, _ | ⟨e, _ | ⟨f, _ | ⟨g, xs⟩⟩⟩⟩⟩⟩⟩ <;>
      simp [seedList]
  · intro xs
    rcases xs with _ | ⟨a, _ | ⟨b, _ | ⟨c, _ | ⟨d, _ | ⟨e, _ | ⟨f, _ | ⟨g, xs⟩⟩⟩⟩⟩⟩⟩ <;>
      simp [initList]

/-- C5 counterexample: with the default seed, reset_stream, two calls of
advance_substream and reset_substream do NOT return the generator to the
state it had right after the first advance_substream call. -/
theorem reset_substream_counterexample :
    (reset_substream (advance_substream (advance_substream (reset_stream
        (MRG32k3a.init refSeedDefault))))).current_state
      ≠ (advance_substream (reset_stream (MRG32k3a.init refSeedDefault))).current_state := by
  decide

/-- C5 as amended: reset_stream, then k+1 calls of advance_substream, then
reset_substream leaves the generator in the state it had immediately after
the most recent (the (k+1)-th) advance_substream call. -/
theorem reset_substream_returns_to_latest (r : MRG32k3a) (k : ℕ) :
    (reset_substream (advance_substream^[k + 1] (reset_stream r))).current_state
      = (advance_substream^[k + 1] (reset_stream r)).current_state := by
  rw [Function.iterate_succ_apply']
  rfl

/-- C6: from any valid state every operation of the module produces only
valid states again: the core step maps valid states to valid states, and
each hierarchy operation maps generators with valid stored states to
generators with valid stored states. -/
theorem all_ops_preserve_validity :
    (∀ s : State6, ValidState s → ValidState (mrg32k3a s).1) ∧
    (∀ r : MRG32k3a, ValidRng r → ValidRng (advance_stream r)) ∧
    (∀ r : MRG32k3a, ValidRng r → ValidRng (advance_substream r)) ∧
    (∀ r : MRG32k3a, ValidRng r → ValidRng (advance_subsubstream r)) ∧
    (∀ r : MRG32k3a, ValidRng r → ValidRng (reset_stream r)) ∧
    (∀ r : MRG32k3a, ValidRng r → ValidRng (reset_substream r)) ∧
    (∀ r : MRG32k3a, ValidRng r → ValidRng (reset_subsubstream r)) ∧
    (∀ (r : MRG32k3a) (t : ℕ × ℕ × ℕ), ValidRng r →
        ValidRng (start_fixed_s_ss_sss r t)) := by
  refine ⟨fun s h => validState_mrgStep s h, fun r h => ?_, fun r h => ?_,
          fun r h => ?_, fun r h => ?_, fun r h => ?_, fun r h => ?_,
          fun r t h => ?_⟩
  · exact ⟨h.1, validState_jumpState _ _ _, validState_jumpState _ _ _,
           validState_jumpState _ _ _, validState_jumpState _ _ _⟩
  · exact ⟨h.1, validState_jumpState _ _ _, h.2.2.1,
           validState_jumpState _ _ _, validState_jumpState _ _ _⟩
  · exact ⟨h.1, validState_jumpState _ _ _, h.2.2.1, h.2.2.2.1,
           validState_jumpState _ _ _⟩
  · exact ⟨h.1, h.2.2.1, h.2.2.1, h.2.2.1, h.2.2.1⟩
  · exact ⟨h.1, h.2.2.2.1, h.2.2.1, h.2.2.2.1, h.2.2.2.1⟩
  · exact ⟨h.1, h.2.2.2.2, h.2.2.1, h.2.2.2.1, h.2.2.2.2⟩
  · exact ⟨h.1,
           validState_iterate _ _ _ _ (validState_iterate _ _ _ _
             (validState_iterate _ _ _ _ h.1)),
           validState_iterate _ _ _ _ h.1,
           validState_iterate _ _ _ _ (validState_iterate _ _ _ _ h.1),
           validState_iterate _ _ _ _ (validState_iterate _ _ _ _
             (validState_iterate _ _ _ _ h.1))⟩

/-- Witness for C6 at concrete inputs. -/
theorem all_ops_preserve_validity_witness :
    ValidState ((mrg32k3a refSeedDefault).1) ∧
    ValidRng (advance_stream (MRG32k3a.init refSeedDefault)) ∧
    ValidRng (start_fixed_s_ss_sss (MRG32k3a.init refSeedDefault) (1, 2, 3)) :=
  ⟨all_ops_preserve_validity.1 refSeedDefault (by decide),
   all_ops_preserve_validity.2.1 (MRG32k3a.init refSeedDefault) (by decide),
   all_ops_preserve_validity.2.2.2.2.2.2.2 (MRG32k3a.init refSeedDefault)
     (1, 2, 3) (by decide)⟩

/-- C7: from a valid state, the draw of the core step after any number of
intervening draws lies strictly between 0 and 1. -/
theorem draws_in_open_unit_interval (s : State6) (n : ℕ) (_h : ValidState s) :
    0 < (mrg32k3a (mrgStep^[n] s)).2 ∧ (mrg32k3a (mrgStep^[n] s)).2 < 1 :=
  mrg32k3a_u_mem (mrgStep^[n] s)

/-- Witness for C7 at a concrete input. -/
theorem draws_in_open_unit_interval_witness :
    ValidState refSeedDefault ∧
    (0 < (mrg32k3a (mrgStep^[3] refSeedDefault)).2 ∧
      (mrg32k3a (mrgStep^[3] refSeedDefault)).2 < 1) :=
  ⟨by decide, draws_in_open_unit_interval refSeedDefault 3 (by decide)⟩

/-- C8: the construction path of the repository — the constructor (taking
the reference seed, always installing index triplet (0,0,0)) followed by
start_fixed_s_ss_sss with the requested triplet — derives all three
anchors and the current state from the reference seed by repeated
jump-matrix application according to the triplet. -/
theorem construct_by_triplet (r : State6) (t : ℕ × ℕ × ℕ) :
    (MRG32k3a.init r).ref_seed = r ∧
    (MRG32k3a.init r).s_ss_sss_index = (0, 0, 0) ∧
    (start_fixed_s_ss_sss (MRG32k3a.init r) t).stream_start
        = (jumpState A1p141 A2p141)^[t.1] r ∧
    (start_fixed_s_ss_sss (MRG32k3a.init r) t).substream_start
        = (jumpState A1p94 A2p94)^[t.2.1] ((jumpState A1p141 A2p141)^[t.1] r) ∧
    (start_fixed_s_ss_sss (MRG32k3a.init r) t).subsubstream_start
        = (jumpState A1p47 A2p47)^[t.2.2] ((jumpState A1p94 A2p94)^[t.2.1]
            ((jumpState A1p141 A2p141)^[t.1] r)) ∧
    (start_fixed_s_ss_sss (MRG32k3a.init r) t).current_state
        = (start_fixed_s_ss_sss (MRG32k3a.init r) t).subsubstream_start ∧
    (start_fixed_s_ss_sss (MRG32k3a.init r) t).s_ss_sss_index = t :=
  ⟨rfl, rfl, rfl, rfl, rfl, rfl, rfl⟩

set_option maxRecDepth 4000 in
/-- C9: squaring the base recursion-1 matrix 47 times modulo m1 yields
exactly the literal constant A1p47, and accordingly the canonical
2⁴⁷-th power of A1p0 over ZMod m1 equals A1p47. -/
theorem jump_matrix_recompute_47 :
    (fun B => mat33_sq_mod B mrgm1)^[47] A1p0 = A1p47 ∧
    toZMat M1nat A1p0 ^ (2 ^ 47) = toZMat M1nat A1p47 := by
  have hcast : ((M1nat : ℕ) : ℤ) = mrgm1 := rfl
  have h1 : (fun B => mat33_sq_mod B mrgm1)^[47] A1p0 = A1p47 := by decide
  refine ⟨h1, ?_⟩
  have h2 := toZMat_sq_iter M1nat 47 A1p0
  rw [hcast] at h2
  rw [← h2, h1]

/-- C10: reset_stream sets the current state, substream_start and
subsubstream_start to stream_start and leaves stream_start unchanged;
reset_substream sets the current state and subsubstream_start to
substream_start and leaves substream_start unchanged. -/
theorem reset_frame_effects (r : MRG32k3a) :
    (reset_stream r).current_state = r.stream_start ∧
    (reset_stream r).substream_start = r.stream_start ∧
    (reset_stream r).subsubstream_start = r.stream_start ∧
    (reset_stream r).stream_start = r.stream_start ∧
    (reset_substream r).current_state = r.substream_start ∧
    (reset_substream r).subsubstream_start = r.substream_start ∧
    (reset_substream r).substream_start = r.substream_start :=
  ⟨rfl, rfl, rfl, rfl, rfl, rfl, rfl⟩
